import Mathlib

/-!
# Verification of the braindown icon generator

A shallow embedding of `src/generate_icon.py`, a straight-line script that
renders a 1024×1024 RGBA icon (blue vertical gradient, rounded-corner alpha
mask, document glyph made of polygons and rounded rectangles), then saves it
as a master PNG and a half-size derivative.

Modelling conventions:
* A raster is a function `ℤ → ℤ → RGBA` (Python ints for coordinates and
  channels); claims quantify over the canvas `0 ≤ x, y < 1024`.
* Python float arithmetic in the gradient is modelled with `ℚ`.  For the
  constants in this script (`t = y/1024` with `y < 2^11`, channel deltas
  `-23, -52, -54`) every intermediate double-precision value is exactly
  representable, so the rational model computes exactly the values the
  script computes.  Python's `int()` truncates toward zero (`pyInt`).
* Pillow primitives are modelled by their documented geometry:
  `ImageDraw.line` fills the inclusive horizontal span, `rounded_rectangle`
  fills the rounded-rectangle region (two axis-aligned bands plus four
  corner disks), `polygon` fills by the even-odd rule (a bounding-box guard
  is conjoined; it does not change the even-odd region since a ray cast
  from outside the bounding box crosses an even number of edges).
  `ImageDraw.Draw` on an RGBA image draws without blending: the fill value,
  alpha included, replaces the pixel.
* The filesystem is a map from paths to directories/file contents; file
  contents are the decoded image (PNG encoding of a fixed image is a fixed
  byte string, so content equality models byte identity).
-/

/-- An RGBA pixel value; channels are Python integers. -/
structure RGBA where
  r : ℤ
  g : ℤ
  b : ℤ
  a : ℤ
deriving DecidableEq

/-- A raster buffer, as a total pixel function (claims restrict to the canvas). -/
abbrev Img := ℤ → ℤ → RGBA

/-- `size = 1024` from the script. -/
def size : ℤ := 1024

/-- Python's `int()` applied to an (exact) rational: truncation toward zero. -/
def pyInt (q : ℚ) : ℤ := if 0 ≤ q then ⌊q⌋ else ⌈q⌉

/-- One channel of the gradient: `int(top + t * (bot - top))` with
`t = (y - y0) / (y1 - y0)`, from the body of `rounded_rect`. -/
def interpChannel (y0 y1 top bot y : ℤ) : ℤ :=
  pyInt ((top : ℚ) + (((y : ℚ) - (y0 : ℤ)) / ((y1 : ℤ) - (y0 : ℤ))) * ((bot : ℚ) - (top : ℤ)))

/-- The RGBA fill `(r, g, b, 255)` computed for scanline `y` in `rounded_rect`. -/
def gradLineColor (ft fb : ℤ × ℤ × ℤ) (y0 y1 y : ℤ) : RGBA :=
  ⟨interpChannel y0 y1 ft.1 fb.1 y,
   interpChannel y0 y1 ft.2.1 fb.2.1 y,
   interpChannel y0 y1 ft.2.2 fb.2.2 y, 255⟩

/-- Embedding of the script's `rounded_rect(draw, xy, radius, fill_top, fill_bottom)`:
for each `y` in `range(y0, y1)` it draws a horizontal line from `(x0, y)` to
`(x1, y)` (PIL lines include both endpoints) with the interpolated fill.
The `radius` parameter is accepted and never used, exactly as in the source. -/
def rounded_rect (img : Img) (xy : ℤ × ℤ × ℤ × ℤ) (radius : ℤ) (ft fb : ℤ × ℤ × ℤ) : Img :=
  fun x y =>
    if xy.2.1 ≤ y ∧ y < xy.2.2.2 ∧ xy.1 ≤ x ∧ x ≤ xy.2.2.1
    then gradLineColor ft fb xy.2.1 xy.2.2.2 y
    else img x y

/-- Membership in the closed disk of radius `r` about `(cx, cy)`. -/
def inCornerDisk (cx cy r x y : ℤ) : Bool :=
  decide ((x - cx) ^ 2 + (y - cy) ^ 2 ≤ r ^ 2)

/-- The rounded-rectangle region over the box `[x0, x1] × [y0, y1]` with corner
radius `r`: the horizontal band, the vertical band, and the four corner disks.
Models Pillow's `rounded_rectangle(..., fill=...)`. -/
def insideRoundedRect (x0 y0 x1 y1 r x y : ℤ) : Bool :=
  decide (x0 ≤ x ∧ x ≤ x1 ∧ y0 + r ≤ y ∧ y ≤ y1 - r) ||
  decide (x0 + r ≤ x ∧ x ≤ x1 - r ∧ y0 ≤ y ∧ y ≤ y1) ||
  inCornerDisk (x0 + r) (y0 + r) r x y ||
  inCornerDisk (x1 - r) (y0 + r) r x y ||
  inCornerDisk (x0 + r) (y1 - r) r x y ||
  inCornerDisk (x1 - r) (y1 - r) r x y

/-- The alpha mask built by `mask_draw.rounded_rectangle([(0, 0), (size-1, size-1)],
radius=220, fill=255)` on an initially zero `L` image. -/
def maskVal (x y : ℤ) : ℤ :=
  if insideRoundedRect 0 0 (size - 1) (size - 1) 220 x y then 255 else 0

/-- `img.putalpha(mask)`: replace the alpha channel with the mask value. -/
def putalpha (img : Img) (m : ℤ → ℤ → ℤ) : Img :=
  fun x y => { img x y with a := m x y }

/-- Does the horizontal ray from `(x, y)` going right cross the edge
`(px, py)–(qx, qy)`?  Half-open in `y`; the crossing must be strictly to the
right of `x` (`(qy - py) * ((qx - px) * (y - py) - (x - px) * (qy - py)) > 0`
is the sign-safe form of `px + (y - py) * (qx - px) / (qy - py) > x`). -/
def edgeCrossesRay (x y px py qx qy : ℤ) : Bool :=
  decide (((py ≤ y ∧ y < qy) ∨ (qy ≤ y ∧ y < py)) ∧
          0 < (qy - py) * ((qx - px) * (y - py) - (x - px) * (qy - py)))

/-- The edges of a closed polygon: consecutive vertex pairs, wrapping around. -/
def edgesOf (pts : List (ℤ × ℤ)) : List ((ℤ × ℤ) × (ℤ × ℤ)) :=
  pts.zip (pts.rotate 1)

/-- Number of polygon edges crossed by the rightward ray from `(x, y)`. -/
def crossCount (pts : List (ℤ × ℤ)) (x y : ℤ) : ℕ :=
  (edgesOf pts).countP fun e => edgeCrossesRay x y e.1.1 e.1.2 e.2.1 e.2.2

/-- Bounding-box test: `x` and `y` each lie between some pair of vertex
coordinates of the polygon. -/
def inBBox (pts : List (ℤ × ℤ)) (x y : ℤ) : Bool :=
  (pts.any fun p => p.1 ≤ x) && (pts.any fun p => x ≤ p.1) &&
  (pts.any fun p => p.2 ≤ y) && (pts.any fun p => y ≤ p.2)

/-- Even-odd polygon coverage, with the bounding-box guard conjoined. -/
def inPolygon (pts : List (ℤ × ℤ)) (x y : ℤ) : Bool :=
  inBBox pts x y && (crossCount pts x y) % 2 == 1

/-- `draw.polygon(pts, fill=c)`: overwrite covered pixels with `c`
(no blending: default `ImageDraw` on an RGBA image replaces pixel values). -/
def drawPolygon (img : Img) (pts : List (ℤ × ℤ)) (c : RGBA) : Img :=
  fun x y => if inPolygon pts x y then c else img x y

/-- `draw.rounded_rectangle([(x0, y0), (x1, y1)], radius=r, fill=c)`:
overwrite covered pixels with `c`. -/
def drawRoundedRectangle (img : Img) (x0 y0 x1 y1 r : ℤ) (c : RGBA) : Img :=
  fun x y => if insideRoundedRect x0 y0 x1 y1 r x y then c else img x y

/-! ## The script's constants and drawing sequence -/

def fill_top : ℤ × ℤ × ℤ := (60, 130, 246)
def fill_bottom : ℤ × ℤ × ℤ := (37, 78, 192)

/-- `Image.new('RGBA', (size, size), (0, 0, 0, 0))`. -/
def img0 : Img := fun _ _ => ⟨0, 0, 0, 0⟩

/-- The canvas after `rounded_rect(draw, (0, 0, size, size), 180, fill_top, fill_bottom)`. -/
def imgGrad : Img := rounded_rect img0 (0, 0, size, size) 180 fill_top fill_bottom

/-- The canvas after `img.putalpha(mask)`. -/
def imgMasked : Img := putalpha imgGrad maskVal

def doc_left : ℤ := 280
def doc_top : ℤ := 160
def doc_right : ℤ := 744
def doc_bottom : ℤ := 864
def corner_fold : ℤ := 120

def doc_points : List (ℤ × ℤ) :=
  [(doc_left, doc_top), (doc_right - corner_fold, doc_top),
   (doc_right, doc_top + corner_fold), (doc_right, doc_bottom),
   (doc_left, doc_bottom)]

def fold_points : List (ℤ × ℤ) :=
  [(doc_right - corner_fold, doc_top), (doc_right, doc_top + corner_fold),
   (doc_right - corner_fold, doc_top + corner_fold)]

def line_color : RGBA := ⟨120, 160, 220, 160⟩
def md_color : RGBA := ⟨37, 78, 192, 80⟩

def m_points : List (ℤ × ℤ) :=
  [(380, 680), (420, 680), (460, 730), (500, 680), (540, 680),
   (540, 780), (500, 780), (500, 720), (460, 770), (420, 720),
   (420, 780), (380, 780)]

def arrow_points : List (ℤ × ℤ) :=
  [(570, 680), (660, 680), (660, 740),
   (690, 740), (615, 790), (540, 740),
   (570, 740)]

/-- The canvas after the whole glyph drawing sequence, in source order:
document body, corner fold, heading line, four body lines, the M shape,
and the down arrow. -/
def imgFinal : Img :=
  drawPolygon
    (drawPolygon
      (drawRoundedRectangle
        (drawRoundedRectangle
          (drawRoundedRectangle
            (drawRoundedRectangle
              (drawRoundedRectangle
                (drawPolygon
                  (drawPolygon imgMasked doc_points ⟨255, 255, 255, 230⟩)
                  fold_points ⟨200, 220, 255, 200⟩)
                340 340 700 380 8 ⟨60, 130, 246, 200⟩)
              340 420 680 448 6 line_color)
            340 478 640 506 6 line_color)
          340 536 700 564 6 line_color)
        340 594 580 622 6 line_color)
      m_points md_color)
    arrow_points md_color

/-- Any-glyph coverage test (used to state which pixels the glyph pass touched). -/
def coveredByGlyph (x y : ℤ) : Bool :=
  inPolygon doc_points x y || inPolygon fold_points x y ||
  insideRoundedRect 340 340 700 380 8 x y ||
  insideRoundedRect 340 420 680 448 6 x y ||
  insideRoundedRect 340 478 640 506 6 x y ||
  insideRoundedRect 340 536 700 564 6 x y ||
  insideRoundedRect 340 594 580 622 6 x y ||
  inPolygon m_points x y || inPolygon arrow_points x y

/-- The fill that the topmost glyph (in source z-order) paints at `(x, y)`,
or `none` when no glyph covers the pixel. -/
def glyphColorAt (x y : ℤ) : Option RGBA :=
  if inPolygon arrow_points x y then some md_color
  else if inPolygon m_points x y then some md_color
  else if insideRoundedRect 340 594 580 622 6 x y then some line_color
  else if insideRoundedRect 340 536 700 564 6 x y then some line_color
  else if insideRoundedRect 340 478 640 506 6 x y then some line_color
  else if insideRoundedRect 340 420 680 448 6 x y then some line_color
  else if insideRoundedRect 340 340 700 380 8 x y then some ⟨60, 130, 246, 200⟩
  else if inPolygon fold_points x y then some ⟨200, 220, 255, 200⟩
  else if inPolygon doc_points x y then some ⟨255, 255, 255, 230⟩
  else none

/-! ## Images with dimensions, resize, and persistence -/

/-- A sized raster image: dimensions plus pixel content. -/
structure Image where
  width : ℤ
  height : ℤ
  px : Img

/-- The master canvas the script saves: 1024×1024 with the final pixels. -/
def img : Image := ⟨size, size, imgFinal⟩

/-- Model of `img.resize((w, h), Image.LANCZOS)`: an image of the requested
dimensions whose pixels are a fixed deterministic function of the source
pixels.  The pixel rule here is an idealized 2×2 box average (the one call
site halves each dimension); Pillow's LANCZOS kernel uses different weights,
but every claim about the derivative depends only on its dimensions and on
the downsampling being a deterministic function of the master. -/
def Image.resize (im : Image) (w h : ℤ) : Image :=
  ⟨w, h, fun i j =>
    let p00 := im.px (2 * i) (2 * j)
    let p10 := im.px (2 * i + 1) (2 * j)
    let p01 := im.px (2 * i) (2 * j + 1)
    let p11 := im.px (2 * i + 1) (2 * j + 1)
    ⟨(p00.r + p10.r + p01.r + p11.r) / 4,
     (p00.g + p10.g + p01.g + p11.g) / 4,
     (p00.b + p10.b + p01.b + p11.b) / 4,
     (p00.a + p10.a + p01.a + p11.a) / 4⟩⟩

/-- `img_512 = img.resize((512, 512), Image.LANCZOS)`. -/
def img_512 : Image := Image.resize img 512 512

/-- A filesystem: which directories exist, and the contents of each file
(`none` = absent).  A file's content is the decoded image; PNG encoding of a
fixed image is a fixed byte string, so content equality models byte identity. -/
structure FS where
  dirs : String → Bool
  files : String → Option Image

/-- A filesystem with no directories and no files. -/
def emptyFS : FS := ⟨fun _ => false, fun _ => none⟩

/-- The script's hard-coded `output_dir`. -/
def output_dir : String :=
  "/Users/kenefe/LOCAL/momo-agent/BrainDown/Resources/Assets.xcassets/AppIcon.appiconset"

/-- `os.path.join(dir, name)` for a relative `name`. -/
def path_join (dir name : String) : String := dir ++ "/" ++ name

/-- Path of the 1024×1024 master file. -/
def masterPath : String := path_join output_dir "icon_512x512@2x.png"

/-- Path of the 512×512 derivative file. -/
def derivPath : String := path_join output_dir "icon_512x512.png"

/-- Split a character list at `'/'` separators (structural recursion, so the
kernel can evaluate it). -/
def splitOnSlash : List Char → List (List Char)
  | [] => [[]]
  | c :: cs =>
    match splitOnSlash cs, decide (c = '/') with
    | rest, true => [] :: rest
    | [], false => [[c]]
    | h :: t, false => (c :: h) :: t

/-- Join path components with `'/'`. -/
def joinSlash : List String → String
  | [] => ""
  | [s] => s
  | s :: rest => s ++ "/" ++ joinSlash rest

/-- Every ancestor of a path, the path itself included: the directories
`os.makedirs` creates recursively. -/
def ancestorPaths (p : String) : List String :=
  let comps := (splitOnSlash p.toList).map fun cs => String.mk cs
  (List.range comps.length).map fun k => joinSlash (comps.take (k + 1))

/-- `os.makedirs(p, exist_ok=True)`: mark `p` and all its ancestors as
existing directories; never fails because a directory already exists. -/
def makedirs (fs : FS) (p : String) : FS :=
  { fs with dirs := fun q => (ancestorPaths p).contains q || fs.dirs q }

/-- `im.save(p, 'PNG')`: overwrite the file at `p` with the image content. -/
def saveFile (fs : FS) (p : String) (im : Image) : FS :=
  { fs with files := fun q => if q = p then some im else fs.files q }

/-- The persistence tail of the script on a filesystem where every operation
succeeds: `os.makedirs(output_dir, exist_ok=True)`, save the master, save the
derivative. -/
def run (fs : FS) : FS :=
  saveFile (saveFile (makedirs fs output_dir) masterPath img) derivPath img_512

/-- The persistence tail with explicit failure injection: `mkOk`, `sv1Ok`,
`sv2Ok` say whether the filesystem accepts the directory creation, the master
save and the derivative save.  A failing operation raises: the script stops
there (returned flag `false`) with the filesystem as mutated so far — no
cleanup, no retry. -/
def runE (fs : FS) (mkOk sv1Ok sv2Ok : Bool) : FS × Bool :=
  if !mkOk then (fs, false)
  else
    let fs1 := makedirs fs output_dir
    if !sv1Ok then (fs1, false)
    else
      let fs2 := saveFile fs1 masterPath img
      if !sv2Ok then (fs2, false)
      else (saveFile fs2 derivPath img_512, true)

/-! ## Spec-side definitions (for refinement claims) -/

/-- The spec's gradient formula: `channel = top + t * (bottom - top)` truncated
to integer, with `t = y / 1024`.  Stated from the spec's words, to be compared
with the source-side `imgGrad`. -/
def specGradChannel (top bot y : ℤ) : ℤ :=
  pyInt ((top : ℚ) + ((y : ℚ) / 1024) * ((bot : ℚ) - (top : ℤ)))

/-- The open rectangle strictly inside the corner-radius band: the claims'
"strictly inside the inner rectangle (away from rounded corners)" for the
radius-220 mask over `[0, 1023]²`. -/
def strictlyInsideInnerRect (x y : ℤ) : Prop :=
  220 < x ∧ x < 803 ∧ 220 < y ∧ y < 803

/-! ## Helper lemmas -/

lemma pyInt_of_nonneg {q : ℚ} (h : 0 ≤ q) : pyInt q = ⌊q⌋ := if_pos h

/-- On the canvas, the gradient pass painted every pixel of row `y` with the
scanline fill for `y`. -/
lemma imgGrad_eval (x y : ℤ) (hx0 : 0 ≤ x) (hx : x ≤ 1024) (hy0 : 0 ≤ y)
    (hy : y < 1024) :
    imgGrad x y = gradLineColor fill_top fill_bottom 0 1024 y := by
  unfold imgGrad rounded_rect
  simp only [size]
  rw [if_pos ⟨hy0, hy, hx0, hx⟩]

/-- The blue channel of the scanline fill, in closed form. -/
lemma blue_eval (y : ℤ) :
    (gradLineColor fill_top fill_bottom 0 1024 y).b =
      pyInt ((246 : ℚ) + ((y : ℚ) / 1024) * ((192 : ℚ) - 246)) := by
  simp [gradLineColor, fill_top, fill_bottom, interpChannel]

/-- On the canvas rows, the blue interpolant is nonnegative. -/
lemma blue_interp_nonneg {y : ℤ} (hy0 : 0 ≤ y) (hy : y < 1024) :
    (0 : ℚ) ≤ (246 : ℚ) + ((y : ℚ) / 1024) * ((192 : ℚ) - 246) := by
  have h1 : (y : ℚ) ≤ 1024 := by exact_mod_cast hy.le
  have h0 : (0 : ℚ) ≤ (y : ℚ) := by exact_mod_cast hy0
  nlinarith


/-! ## Claim theorems -/

/-- C1: for every scanline row `y` of the 1024-wide background fill, the fill
written across the full canvas width has each channel equal to
`top + t * (bottom - top)` truncated to integer with `t = y / 1024`,
`top = (60, 130, 246)`, `bottom = (37, 78, 192)`, and alpha 255. -/
theorem gradient_matches_spec_formula (x y : ℤ)
    (hx0 : 0 ≤ x) (hx : x < 1024) (hy0 : 0 ≤ y) (hy : y < 1024) :
    imgGrad x y =
      ⟨specGradChannel 60 37 y, specGradChannel 130 78 y,
       specGradChannel 246 192 y, 255⟩ := by
  rw [imgGrad_eval x y hx0 hx.le hy0 hy]
  simp [gradLineColor, fill_top, fill_bottom, interpChannel, specGradChannel]

/-- Witness for C1 at pixel `(5, 7)`. -/
theorem gradient_matches_spec_formula_witness :
    (0 : ℤ) ≤ 5 ∧ (5 : ℤ) < 1024 ∧ (0 : ℤ) ≤ 7 ∧ (7 : ℤ) < 1024 ∧
    imgGrad 5 7 =
      ⟨specGradChannel 60 37 7, specGradChannel 130 78 7,
       specGradChannel 246 192 7, 255⟩ :=
  ⟨by norm_num, by norm_num, by norm_num, by norm_num,
   gradient_matches_spec_formula 5 7 (by norm_num) (by norm_num) (by norm_num)
     (by norm_num)⟩

/-- C5: for any fixed column of the gradient, the blue channel is monotonically
non-increasing as the row index increases from 0 to 1023. -/
theorem gradient_blue_monotone (x y1 y2 : ℤ) (hx0 : 0 ≤ x) (hx : x < 1024)
    (hy0 : 0 ≤ y1) (h12 : y1 ≤ y2) (hy2 : y2 < 1024) :
    (imgGrad x y2).b ≤ (imgGrad x y1).b := by
  rw [imgGrad_eval x y1 hx0 hx.le hy0 (by omega),
      imgGrad_eval x y2 hx0 hx.le (by omega) hy2, blue_eval, blue_eval,
      pyInt_of_nonneg (blue_interp_nonneg hy0 (by omega)),
      pyInt_of_nonneg (blue_interp_nonneg (by omega) hy2)]
  apply Int.floor_le_floor
  have h12q : (y1 : ℚ) ≤ (y2 : ℚ) := by exact_mod_cast h12
  nlinarith

/-- Witness for C5 at column 100, rows 0 and 1023. -/
theorem gradient_blue_monotone_witness :
    (0 : ℤ) ≤ 100 ∧ (100 : ℤ) < 1024 ∧ (0 : ℤ) ≤ 0 ∧ (0 : ℤ) ≤ 1023 ∧
    (1023 : ℤ) < 1024 ∧ (imgGrad 100 1023).b ≤ (imgGrad 100 0).b :=
  ⟨by norm_num, by norm_num, by norm_num, by norm_num, by norm_num,
   gradient_blue_monotone 100 0 1023 (by norm_num) (by norm_num) (by norm_num)
     (by norm_num) (by norm_num)⟩

/-- C3: the master image is exactly 1024×1024, the derivative exactly 512×512,
and the derivative is produced by the deterministic `resize` downsampling of
the master. -/
theorem output_dimensions :
    img.width = 1024 ∧ img.height = 1024 ∧
    img_512.width = 512 ∧ img_512.height = 512 ∧
    img_512 = Image.resize img 512 512 :=
  ⟨rfl, rfl, rfl, rfl, rfl⟩

/-- C4: determinism.  The contents written to the two output paths are fixed
constants, independent of any pre-existing filesystem state; two runs against
any two prior states produce identical file contents at both paths. -/
theorem run_deterministic (fsA fsB : FS) :
    (run fsA).files masterPath = some img ∧
    (run fsA).files derivPath = some img_512 ∧
    (run fsA).files masterPath = (run fsB).files masterPath ∧
    (run fsA).files derivPath = (run fsB).files derivPath := by
  have hne : masterPath ≠ derivPath := by decide
  refine ⟨?_, ?_, ?_, ?_⟩ <;> simp [run, saveFile, makedirs, hne]

/-- C6: a successful run writes exactly the master file and the derivative
file into the fixed destination directory, and leaves every other file
untouched (and the model reads no file at all). -/
theorem run_writes_exactly_two_files (fs : FS) :
    (run fs).files masterPath = some img ∧
    (run fs).files derivPath = some img_512 ∧
    ∀ p : String, p ≠ masterPath → p ≠ derivPath → (run fs).files p = fs.files p := by
  have hne : masterPath ≠ derivPath := by decide
  refine ⟨by simp [run, saveFile, makedirs, hne], by simp [run, saveFile, makedirs], ?_⟩
  intro p h1 h2
  simp [run, saveFile, makedirs, h1, h2]

/-- Witness for C6: on an empty filesystem the two outputs are written and an
unrelated path stays absent. -/
theorem run_writes_exactly_two_files_witness :
    (run emptyFS).files masterPath = some img ∧
    (run emptyFS).files derivPath = some img_512 ∧
    (run emptyFS).files "/tmp/other.png" = none := by
  obtain ⟨h1, h2, h3⟩ := run_writes_exactly_two_files emptyFS
  exact ⟨h1, h2, h3 "/tmp/other.png" (by decide) (by decide)⟩

/-- C7: before saving, the run ensures the destination directory exists,
creating it and all its ancestors; with writable storage the run succeeds for
every prior filesystem state — in particular when the directory does not yet
exist, and without error when it already does (`exist_ok=True`). -/
theorem run_creates_destination_directory (fs : FS) :
    (runE fs true true true).2 = true ∧
    (run fs).dirs output_dir = true ∧
    ∀ d : String, d ∈ ancestorPaths output_dir → (run fs).dirs d = true := by
  refine ⟨rfl, ?_, ?_⟩
  · have hmem : output_dir ∈ ancestorPaths output_dir := by decide
    simp [run, saveFile, makedirs]
    left
    exact hmem
  · intro d hd
    simp [run, saveFile, makedirs]
    left
    exact hd

/-- Witness for C7 on the empty filesystem (destination directory absent):
the run succeeds and creates the directory and an ancestor. -/
theorem run_creates_destination_directory_witness :
    (runE emptyFS true true true).2 = true ∧
    (run emptyFS).dirs output_dir = true ∧
    (run emptyFS).dirs "/Users" = true := by
  obtain ⟨h1, h2, h3⟩ := run_creates_destination_directory emptyFS
  exact ⟨h1, h2, h3 "/Users" (by decide)⟩

/-- C8 (amended): a failing save propagates, nothing is cleaned up, and a run
that fails at the derivative save leaves the master written and the derivative
missing; the reverse is impossible — starting from a state where neither
output exists, any run (any failure pattern) that has the derivative present
also has the master present, because the master is saved first. -/
theorem failed_run_partial_output (fs : FS)
    (h1 : fs.files masterPath = none) (h2 : fs.files derivPath = none) :
    ((runE fs true true false).2 = false ∧
     (runE fs true true false).1.files masterPath = some img ∧
     (runE fs true true false).1.files derivPath = none) ∧
    ∀ mkOk sv1Ok sv2Ok : Bool,
      ((runE fs mkOk sv1Ok sv2Ok).1.files derivPath).isSome = true →
      ((runE fs mkOk sv1Ok sv2Ok).1.files masterPath).isSome = true := by
  have hne : derivPath ≠ masterPath := by decide
  constructor
  · refine ⟨rfl, by simp [runE, saveFile, makedirs], ?_⟩
    simp [runE, saveFile, makedirs, hne, h2]
  · intro mkOk sv1Ok sv2Ok
    cases mkOk <;> cases sv1Ok <;> cases sv2Ok <;>
      simp [runE, saveFile, makedirs, hne, hne.symm, h1, h2]

/-- Witness for C8 (amended) on the empty filesystem. -/
theorem failed_run_partial_output_witness :
    (((runE emptyFS true true false).2 = false ∧
      (runE emptyFS true true false).1.files masterPath = some img ∧
      (runE emptyFS true true false).1.files derivPath = none) ∧
     ∀ mkOk sv1Ok sv2Ok : Bool,
       ((runE emptyFS mkOk sv1Ok sv2Ok).1.files derivPath).isSome = true →
       ((runE emptyFS mkOk sv1Ok sv2Ok).1.files masterPath).isSome = true) :=
  failed_run_partial_output emptyFS rfl rfl

/-- Counterexample to C8 as stated: the "vice versa" case (derivative written,
master missing) never occurs.  Starting from an empty filesystem, every one of
the seven failing runs (every failure pattern other than all-succeed) leaves
the derivative file absent, so no failed run leaves the derivative without the
master. -/
theorem failed_run_never_leaves_only_derivative :
    (runE emptyFS false false false).1.files derivPath = none ∧
    (runE emptyFS false false true).1.files derivPath = none ∧
    (runE emptyFS false true false).1.files derivPath = none ∧
    (runE emptyFS false true true).1.files derivPath = none ∧
    (runE emptyFS true false false).1.files derivPath = none ∧
    (runE emptyFS true false true).1.files derivPath = none ∧
    (runE emptyFS true true false).1.files derivPath = none := by
  have hne : derivPath ≠ masterPath := by decide
  refine ⟨rfl, rfl, rfl, rfl, rfl, rfl, ?_⟩
  simp [runE, saveFile, makedirs, hne, emptyFS]

lemma sq_le_bounds {a r : ℤ} (hr : 0 ≤ r) (h : a ^ 2 ≤ r ^ 2) :
    -r ≤ a ∧ a ≤ r := by
  constructor <;> nlinarith

/-- A point of the rounded-rectangle region lies in the bounding box, provided
the radius fits in the box. -/
lemma insideRoundedRect_bounds {x0 y0 x1 y1 r x y : ℤ} (hr : 0 ≤ r)
    (hxd : x0 + 2 * r ≤ x1) (hyd : y0 + 2 * r ≤ y1)
    (h : insideRoundedRect x0 y0 x1 y1 r x y = true) :
    x0 ≤ x ∧ x ≤ x1 ∧ y0 ≤ y ∧ y ≤ y1 := by
  unfold insideRoundedRect inCornerDisk at h
  simp only [Bool.or_eq_true, decide_eq_true_eq] at h
  rcases h with ((((h | h) | h) | h) | h) | h
  · omega
  · omega
  all_goals {
    obtain ⟨cx, cy, hd⟩ :
        ∃ cx cy, (x - cx) ^ 2 + (y - cy) ^ 2 ≤ r ^ 2 ∧
          x0 ≤ cx - r ∧ cx + r ≤ x1 ∧ y0 ≤ cy - r ∧ cy + r ≤ y1 := by
      first
      | exact ⟨x0 + r, y0 + r, h, by omega, by omega, by omega, by omega⟩
      | exact ⟨x1 - r, y0 + r, h, by omega, by omega, by omega, by omega⟩
      | exact ⟨x0 + r, y1 - r, h, by omega, by omega, by omega, by omega⟩
      | exact ⟨x1 - r, y1 - r, h, by omega, by omega, by omega, by omega⟩
    obtain ⟨hsum, hb1, hb2, hb3, hb4⟩ := hd
    have hx2 : (x - cx) ^ 2 ≤ r ^ 2 := by nlinarith [sq_nonneg (y - cy)]
    have hy2 : (y - cy) ^ 2 ≤ r ^ 2 := by nlinarith [sq_nonneg (x - cx)]
    obtain ⟨ha1, ha2⟩ := sq_le_bounds hr hx2
    obtain ⟨ha3, ha4⟩ := sq_le_bounds hr hy2
    omega
  }

lemma inPolygon_bbox {pts : List (ℤ × ℤ)} {x y : ℤ}
    (h : inPolygon pts x y = true) : inBBox pts x y = true := by
  unfold inPolygon at h
  simp only [Bool.and_eq_true] at h
  exact h.1

lemma inBBox_doc {x y : ℤ} (h : inBBox doc_points x y = true) :
    280 ≤ x ∧ x ≤ 744 ∧ 160 ≤ y ∧ y ≤ 864 := by
  simp [inBBox, doc_points, doc_left, doc_top, doc_right, doc_bottom,
    corner_fold] at h
  omega

lemma inBBox_fold {x y : ℤ} (h : inBBox fold_points x y = true) :
    624 ≤ x ∧ x ≤ 744 ∧ 160 ≤ y ∧ y ≤ 280 := by
  simp [inBBox, fold_points, doc_left, doc_top, doc_right, doc_bottom,
    corner_fold] at h
  omega

lemma inBBox_m {x y : ℤ} (h : inBBox m_points x y = true) :
    380 ≤ x ∧ x ≤ 540 ∧ 680 ≤ y ∧ y ≤ 780 := by
  simp [inBBox, m_points] at h
  omega

lemma inBBox_arrow {x y : ℤ} (h : inBBox arrow_points x y = true) :
    540 ≤ x ∧ x ≤ 690 ∧ 680 ≤ y ∧ y ≤ 790 := by
  simp [inBBox, arrow_points] at h
  omega

/-- Every glyph the script draws lies inside the vertical band
`220 ≤ x ≤ 803`, `0 ≤ y ≤ 1023` of the radius-220 rounded rectangle. -/
lemma glyph_in_band {x y : ℤ} {c : RGBA} (h : glyphColorAt x y = some c) :
    220 ≤ x ∧ x ≤ 803 ∧ 0 ≤ y ∧ y ≤ 1023 := by
  unfold glyphColorAt at h
  split_ifs at h with h1 h2 h3 h4 h5 h6 h7 h8 h9
  · have := inBBox_arrow (inPolygon_bbox h1); omega
  · have := inBBox_m (inPolygon_bbox h2); omega
  · have := insideRoundedRect_bounds (by omega) (by omega) (by omega) h3; omega
  · have := insideRoundedRect_bounds (by omega) (by omega) (by omega) h4; omega
  · have := insideRoundedRect_bounds (by omega) (by omega) (by omega) h5; omega
  · have := insideRoundedRect_bounds (by omega) (by omega) (by omega) h6; omega
  · have := insideRoundedRect_bounds (by omega) (by omega) (by omega) h7; omega
  · have := inBBox_fold (inPolygon_bbox h8); omega
  · have := inBBox_doc (inPolygon_bbox h9); omega

/-- A pixel no glyph covers keeps the value it had right after the mask was
applied. -/
lemma imgFinal_uncovered (x y : ℤ) (h : glyphColorAt x y = none) :
    imgFinal x y = imgMasked x y := by
  unfold glyphColorAt at h
  unfold imgFinal drawPolygon drawRoundedRectangle
  split_ifs at h ⊢
  simp_all

lemma insideRoundedRect_of_band {x0 y0 x1 y1 r x y : ℤ}
    (h : x0 + r ≤ x ∧ x ≤ x1 - r ∧ y0 ≤ y ∧ y ≤ y1) :
    insideRoundedRect x0 y0 x1 y1 r x y = true := by
  unfold insideRoundedRect
  simp [h.1, h.2.1, h.2.2.1, h.2.2.2]

/-- C2 counterexample: pixel `(400, 400)` is strictly inside the inner
rectangle, away from the rounded corners, yet in the saved master image its
alpha is 230 (the document glyph's literal alpha), not 255. -/
theorem inner_rect_alpha_not_universal :
    strictlyInsideInnerRect 400 400 ∧ (imgFinal 400 400).a = 230 ∧
    ¬ (imgFinal 400 400).a = 255 := by
  refine ⟨by norm_num [strictlyInsideInnerRect], by decide, by decide⟩

/-- C2 (amended): in the saved master image, every canvas pixel strictly
outside the radius-220 rounded-rectangle clip region has alpha 0, and every
pixel strictly inside the inner rectangle away from the rounded corners *and
not covered by any glyph drawn after the mask* has alpha 255. -/
theorem corner_clip_alpha (x y : ℤ) (hx0 : 0 ≤ x) (hx1 : x < size)
    (hy0 : 0 ≤ y) (hy1 : y < size) :
    (insideRoundedRect 0 0 (size - 1) (size - 1) 220 x y = false →
      (imgFinal x y).a = 0) ∧
    (strictlyInsideInnerRect x y → glyphColorAt x y = none →
      (imgFinal x y).a = 255) := by
  constructor
  · intro hout
    cases hopt : glyphColorAt x y with
    | none =>
        rw [imgFinal_uncovered x y hopt]
        show maskVal x y = 0
        simp [maskVal, hout]
    | some c =>
        exfalso
        obtain ⟨ha, hb, hc, hd⟩ := glyph_in_band hopt
        have hin : insideRoundedRect 0 0 (size - 1) (size - 1) 220 x y = true :=
          insideRoundedRect_of_band
            ⟨by omega, by simp only [size]; omega, hc, by simp only [size]; omega⟩
        rw [hout] at hin
        exact Bool.false_ne_true hin
  · intro hin hnone
    rw [imgFinal_uncovered x y hnone]
    show maskVal x y = 255
    obtain ⟨h1, h2, h3, h4⟩ := hin
    have hmem : insideRoundedRect 0 0 (size - 1) (size - 1) 220 x y = true :=
      insideRoundedRect_of_band
        ⟨by omega, by simp only [size]; omega, by omega, by simp only [size]; omega⟩
    simp [maskVal, hmem]

/-- Witness for C2 (amended): `(0, 0)` is strictly outside the clip region and
ends with alpha 0; `(250, 250)` is strictly inside the inner rectangle,
uncovered by every glyph, and ends with alpha 255. -/
theorem corner_clip_alpha_witness :
    (imgFinal 0 0).a = 0 ∧ (imgFinal 250 250).a = 255 :=
  ⟨(corner_clip_alpha 0 0 (by decide) (by decide) (by decide) (by decide)).1
     (by decide),
   (corner_clip_alpha 250 250 (by decide) (by decide) (by decide) (by decide)).2
     (by norm_num [strictlyInsideInnerRect]) (by decide)⟩

/-- C9: the radius argument (the literal 180 at the call site) is never used —
the gradient pass is the same function whatever radius is passed — and the
final alpha of every pixel no glyph covers is exactly the radius-220 mask
value, so the icon's effective corner radius comes from the mask alone. -/
theorem gradient_radius_unused :
    (∀ r1 r2 : ℤ,
      rounded_rect img0 (0, 0, size, size) r1 fill_top fill_bottom =
        rounded_rect img0 (0, 0, size, size) r2 fill_top fill_bottom) ∧
    ∀ x y : ℤ, glyphColorAt x y = none → (imgFinal x y).a = maskVal x y := by
  refine ⟨fun r1 r2 => rfl, fun x y h => ?_⟩
  rw [imgFinal_uncovered x y h]
  rfl

/-- Witness for C9: radii 180 and 220 give the same gradient pass, and the
uncovered pixel `(0, 0)` carries exactly the mask value. -/
theorem gradient_radius_unused_witness :
    rounded_rect img0 (0, 0, size, size) 180 fill_top fill_bottom =
      rounded_rect img0 (0, 0, size, size) 220 fill_top fill_bottom ∧
    glyphColorAt 0 0 = none ∧ (imgFinal 0 0).a = maskVal 0 0 :=
  ⟨gradient_radius_unused.1 180 220, by decide,
   gradient_radius_unused.2 0 0 (by decide)⟩

set_option maxHeartbeats 1000000 in
/-- A pixel some glyph covers ends with the topmost covering glyph's fill
value — the draw overwrote it, alpha included. -/
lemma imgFinal_covered (x y : ℤ) (c : RGBA) (h : glyphColorAt x y = some c) :
    imgFinal x y = c := by
  unfold glyphColorAt at h
  simp only [imgFinal, drawPolygon, drawRoundedRectangle]
  split_ifs at h ⊢ <;> exact Option.some.inj h

/-- Each glyph fill's literal alpha is one of 230, 200, 160, 80. -/
lemma glyphColorAt_alpha (x y : ℤ) (c : RGBA) (h : glyphColorAt x y = some c) :
    c.a = 230 ∨ c.a = 200 ∨ c.a = 160 ∨ c.a = 80 := by
  unfold glyphColorAt at h
  split_ifs at h <;> (obtain rfl := Option.some.inj h; decide)

/-- C10: glyphs are drawn after the mask and their fills overwrite the pixel,
alpha included: every pixel covered by a glyph carries the covering glyph's
literal fill (alpha 230 for the document body, 200 for the fold and heading,
160 for the body lines, 80 for the M and the arrow), never 255. -/
theorem glyph_alpha_overwrites (x y : ℤ) (c : RGBA)
    (h : glyphColorAt x y = some c) :
    imgFinal x y = c ∧ (c.a = 230 ∨ c.a = 200 ∨ c.a = 160 ∨ c.a = 80) ∧
    c.a ≠ 255 := by
  refine ⟨imgFinal_covered x y c h, glyphColorAt_alpha x y c h, ?_⟩
  rcases glyphColorAt_alpha x y c h with h1 | h1 | h1 | h1 <;> omega

/-- Witness for C10 at pixel `(400, 400)`, covered by the document body. -/
theorem glyph_alpha_overwrites_witness :
    glyphColorAt 400 400 = some ⟨255, 255, 255, 230⟩ ∧
    (imgFinal 400 400 = ⟨255, 255, 255, 230⟩ ∧
     ((255, 255, 255, 230) : ℤ × ℤ × ℤ × ℤ).2.2.2 = 230) :=
  ⟨by decide,
   (glyph_alpha_overwrites 400 400 ⟨255, 255, 255, 230⟩ (by decide)).1,
   by decide⟩

/-- Witness for C4: two consecutive runs (the second starting from the state
the first left) write identical contents to both output paths. -/
theorem run_deterministic_witness :
    (run emptyFS).files masterPath = some img ∧
    (run emptyFS).files derivPath = some img_512 ∧
    (run emptyFS).files masterPath = (run (run emptyFS)).files masterPath ∧
    (run emptyFS).files derivPath = (run (run emptyFS)).files derivPath :=
  run_deterministic emptyFS (run emptyFS)
